import Mathlib

/-!
# Google search adapter (`src/search/google.go`)

A shallow embedding of `Google.Search`.  The function is effectful: it logs,
issues an HTTP GET, decodes the body, closes the body and sends on a channel.
The embedding makes the effects explicit: `Search` returns the trace of
effects of one invocation, in the order in which they happen.  The two
library calls whose outcome the function cannot control (`http.Get` and
`json.Decoder.Decode`) are parameters, collected in `Env`.

A call of `http.Get` is not one HTTP request: the default client first parses
the URL and then follows the redirects of the provider.  `clientGet` models
that loop over a network `Net`, and `wire` gives the HTTP requests that the
calls of a trace put on the network.

Go strings are modelled by Lean strings (sequences of code points); the only
string operation of the source, the replacement of the one-byte ASCII space,
acts alike on bytes and on code points.  A Go slice is modelled by
`Slice α`, which keeps the nil slice apart from the empty one.
-/

namespace search

/-! ## Data model -/

/-- A Go slice of `α`: `none` is the nil slice, `some xs` a slice that is not
nil and holds `xs`. -/
abbrev Slice (α : Type) := Option (List α)

/-- The elements of a slice, as `range` visits them; a nil slice has none. -/
def Slice.toList {α : Type} : Slice α → List α
  | none => []
  | some xs => xs

/-- The built-in `append(s, x)`: the outcome is never nil. -/
def Slice.append {α : Type} (s : Slice α) (x : α) : Slice α :=
  some (Slice.toList s ++ [x])

/-- The type `Result` of the package: one normalised search result. -/
structure Result where
  Engine : String
  Title : String
  Link : String
  Content : String
  deriving DecidableEq, Repr

/-- The type `gResult`: the result document received from the search. -/
structure gResult where
  GsearchResultClass : String
  UnescapedURL : String
  URL : String
  VisibleURL : String
  CacheURL : String
  Title : String
  TitleNoFormatting : String
  Content : String
  deriving DecidableEq, Repr

/-- The anonymous struct type of the field `ResponseData` of `gResponse`. -/
structure gResponseData where
  Results : Slice gResult
  deriving DecidableEq, Repr

/-- The type `gResponse`: the top level document. -/
structure gResponse where
  ResponseData : gResponseData
  deriving DecidableEq, Repr

/-- The part of `http.Response` that `Search` uses: the body. -/
structure Response where
  Body : String
  deriving DecidableEq, Repr

/-! ## The library calls -/

/-- Outcomes of the two library calls of `Search`.

* `httpGet uri` is `http.Get(uri)`: an error, or a response;
* `jsonDecode body` is `json.NewDecoder(body).Decode(&gr)` on a zero `gr`:
  the value left in `gr` (which a failed decode may have filled in part) and
  the error, `none` for `nil`. -/
structure Env where
  httpGet : String → Except String Response
  jsonDecode : String → gResponse × Option String

/-- The loop of `strings.Replace` for a pattern that is not empty.
`skip` counts the characters of a match that are still to be dropped, `n`
the replacements still allowed (`none`: no limit). -/
def replaceLoop (old new : List Char) : Option Nat → Nat → List Char → List Char
  | _, _, [] => []
  | n, skip + 1, _ :: cs => replaceLoop old new n skip cs
  | n, 0, c :: cs =>
    if n ≠ some 0 ∧ old.isPrefixOf (c :: cs) then
      new ++ replaceLoop old new (n.map Nat.pred) (old.length - 1) cs
    else
      c :: replaceLoop old new n 0 cs

/-- The loop of `strings.Replace` for the empty pattern, which matches before
every character and at the end. -/
def insertLoop (new : List Char) : Option Nat → List Char → List Char
  | n, [] => if n ≠ some 0 then new else []
  | n, c :: cs =>
    if n ≠ some 0 then new ++ c :: insertLoop new (n.map Nat.pred) cs
    else c :: cs

/-- The library function `strings.Replace(s, old, new, n)`: `s` with the
first `n` non-overlapping instances of `old` replaced by `new`, all of them
when `n < 0`. -/
def stringsReplace (s old new : String) (n : Int) : String :=
  if old = new ∨ n = 0 then s
  else
    let limit : Option Nat := if n < 0 then none else some n.toNat
    if old.data = [] then ⟨insertLoop new.data limit s.data⟩
    else ⟨replaceLoop old.data new.data limit 0 s.data⟩

/-! ## Effects -/

/-- One observable effect of `Search`. -/
inductive Event where
  | log (msg : String)
  | get (uri : String)
  | decode (body : String)
  | close (body : String)
  | send (results : Slice Result)
  deriving DecidableEq, Repr

/-- A call registered by a `defer` statement of `Search`. -/
inductive Deferred where
  | sendResults
  | closeBody (body : String)
  deriving DecidableEq, Repr

/-- The state of one activation of `Search`: the local `results`, the effects
so far (oldest first) and the deferred calls (last registered first). -/
structure Frame where
  results : Slice Result
  trace : List Event
  deferred : List Deferred
  deriving DecidableEq, Repr

/-- Perform one effect. -/
def Frame.emit (f : Frame) (e : Event) : Frame :=
  { f with trace := f.trace ++ [e] }

/-- The statement `defer d`. -/
def Frame.defer (f : Frame) (d : Deferred) : Frame :=
  { f with deferred := d :: f.deferred }

/-- Run one deferred call.  The closure of `sendResults` reads the variable
`results` when it runs, not when it was registered. -/
def Frame.run (f : Frame) : Deferred → Frame
  | .sendResults => f.emit (.send f.results)
  | .closeBody body => f.emit (.close body)

/-- Leave the function: the deferred calls run, last registered first.  The
value is the trace of the whole invocation. -/
def Frame.ret (f : Frame) : List Event :=
  (f.deferred.foldl Frame.run { f with deferred := [] }).trace

/-! ## `Google.Search` -/

/-- The constant prefix of the request URL. -/
def baseURI : String :=
  "http://ajax.googleapis.com/ajax/services/search/web?v=1.0&rsz=8&q="

/-- The local `uri` of `Search`, lines 53 and 54. -/
def requestURI (searchTerm : String) : String :=
  let searchTerm := stringsReplace searchTerm " " "+" (-1)
  baseURI ++ searchTerm

/-- The body of the `range` loop of `Search`, lines 77 to 82. -/
def appendResult (results : Slice Result) (result : gResult) : Slice Result :=
  Slice.append results
    { Engine := "Google"
      Title := result.Title
      Link := result.URL
      Content := result.Content }

/-- The method `Google.Search`: the trace of one invocation. -/
def Search (env : Env) (searchTerm : String) : List Event :=
  let f : Frame := { results := none, trace := [], deferred := [] }
  let f := f.emit (.log ("Google Search : Started : searchTerm[" ++ searchTerm ++ "]\n"))
  let f := { f with results := some [] }
  let f := f.defer .sendResults
  let uri := requestURI searchTerm
  let f := f.emit (.log ("Google Search : URL : " ++ uri ++ "\n"))
  let f := f.emit (.get uri)
  match env.httpGet uri with
  | .error err =>
    let f := f.emit (.log ("Google Search : Get : ERROR : " ++ err ++ "\n"))
    f.ret
  | .ok resp =>
    let f := f.defer (.closeBody resp.Body)
    let f := f.emit (.decode resp.Body)
    match env.jsonDecode resp.Body with
    | (_, some err) =>
      let f := f.emit (.log ("Google Search : Decode : ERROR : " ++ err ++ "\n"))
      f.ret
    | (gr, none) =>
      let f := { f with
        results := (Slice.toList gr.ResponseData.Results).foldl appendResult f.results }
      let f := f.emit (.log "Google Search : Completed\n")
      f.ret

/-! ## Observations on a trace -/

/-- The values sent on the result channel, in order. -/
def sent : List Event → List (Slice Result)
  | [] => []
  | .send rs :: es => rs :: sent es
  | _ :: es => sent es

/-- The URLs handed to `http.Get`, one for each call, in order. -/
def requested : List Event → List String
  | [] => []
  | .get uri :: es => uri :: requested es
  | _ :: es => requested es

/-- The bodies handed to the JSON decoder, in order. -/
def decoded : List Event → List String
  | [] => []
  | .decode body :: es => body :: decoded es
  | _ :: es => decoded es

/-- The bodies closed, in order. -/
def closed : List Event → List String
  | [] => []
  | .close body :: es => body :: closed es
  | _ :: es => closed es

/-- The `Result` that `Search` builds from one record. -/
def toResult (r : gResult) : Result :=
  { Engine := "Google", Title := r.Title, Link := r.URL, Content := r.Content }

/-! ## The HTTP client behind `http.Get` -/

/-- The answer of the network to one HTTP request. -/
inductive Reply where
  /-- The round trip failed: no connection, a timeout, a broken reply. -/
  | fail (err : String)
  /-- A redirect that the client follows; `location` is the URL of the next
  request. -/
  | redirect (location : String)
  /-- Any other reply: it is the response of the call. -/
  | response (resp : Response)
  deriving DecidableEq, Repr

/-- What a call of `http.Get` depends on.

* `parse uri` is the parse of the URL text by the client before anything is
  sent: the error, `none` when the text is accepted;
* `roundTrip via url` is the answer to the HTTP GET of `url`, sent after the
  requests to the URLs `via` of the same call. -/
structure Net where
  parse : String → Option String
  roundTrip : List String → String → Reply

/-- The loop of the default client: send the request, follow a redirect.
`fuel` is the number of requests still allowed: the default redirect policy
stops the call when ten requests were made.  The value is the URLs of the
requests sent, in order, and the outcome of the call. -/
def clientLoop (net : Net) : Nat → List String → String → List String × Except String Response
  | 0, via, _ => (via, .error "stopped after 10 redirects")
  | fuel + 1, via, url =>
    match net.roundTrip via url with
    | .fail err => (via ++ [url], .error err)
    | .response resp => (via ++ [url], .ok resp)
    | .redirect location => clientLoop net fuel (via ++ [url]) location

/-- The library function `http.Get(uri)` over the network `net`: the URLs of
the HTTP requests sent, in order, and the outcome of the call. -/
def clientGet (net : Net) (uri : String) : List String × Except String Response :=
  match net.parse uri with
  | some err => ([], .error err)
  | none => clientLoop net 10 [] uri

/-- The environment of `Search` in which `http.Get` is the default client
over the network `net`. -/
def Env.ofNet (net : Net) (jsonDecode : String → gResponse × Option String) : Env where
  httpGet := fun uri => (clientGet net uri).2
  jsonDecode := jsonDecode

/-- The URLs of the HTTP requests that the calls of `http.Get` of a trace put
on the network, in order. -/
def wire (net : Net) (trace : List Event) : List String :=
  ((requested trace).map fun uri => (clientGet net uri).1).flatten

/-- The first test of the URL parser of the library: whether the text holds
an ASCII control character. -/
def containsCTL (s : String) : Bool :=
  s.data.any fun c => decide (c.toNat < 32) || decide (c.toNat = 127)

/-! ## Sample inputs -/

/-- A provider that cannot be reached. -/
def envDown : Env where
  httpGet := fun _ => .error "dial tcp: no route to host"
  jsonDecode := fun _ => (⟨⟨none⟩⟩, some "EOF")

/-- Two records of a response. -/
def sampleRecords : List gResult :=
  [ { GsearchResultClass := "GwebSearch", UnescapedURL := "https://go.dev/",
      URL := "https://go.dev/", VisibleURL := "go.dev", CacheURL := "",
      Title := "The <b>Go</b> Programming Language",
      TitleNoFormatting := "The Go Programming Language",
      Content := "Build simple, secure, scalable systems" },
    { GsearchResultClass := "GwebSearch", UnescapedURL := "https://go.dev/doc/?a=b",
      URL := "https://go.dev/doc/%3Fa%3Db", VisibleURL := "go.dev", CacheURL := "c2",
      Title := "Documentation", TitleNoFormatting := "Documentation",
      Content := "The Go programming language is an open source project" } ]

/-- A provider that answers with `sampleRecords`. -/
def envTwo : Env where
  httpGet := fun _ => .ok ⟨"body"⟩
  jsonDecode := fun _ => (⟨⟨some sampleRecords⟩⟩, none)

/-- A provider whose body fails to decode after one record was read. -/
def envBadJSON : Env where
  httpGet := fun _ => .ok ⟨"body"⟩
  jsonDecode := fun _ => (⟨⟨some (sampleRecords.take 1)⟩⟩, some "unexpected EOF")

/-- The records of `sampleRecords` with other values in the fields that
`Search` does not read. -/
def sampleRecordsAlt : List gResult :=
  [ { GsearchResultClass := "GimageSearch", UnescapedURL := "https://example.org/",
      URL := "https://go.dev/", VisibleURL := "example.org", CacheURL := "c1",
      Title := "The <b>Go</b> Programming Language",
      TitleNoFormatting := "Something else",
      Content := "Build simple, secure, scalable systems" },
    { GsearchResultClass := "", UnescapedURL := "",
      URL := "https://go.dev/doc/%3Fa%3Db", VisibleURL := "", CacheURL := "",
      Title := "Documentation", TitleNoFormatting := "",
      Content := "The Go programming language is an open source project" } ]

/-- A provider that answers with `sampleRecordsAlt`. -/
def envTwoAlt : Env where
  httpGet := fun _ => .ok ⟨"other body"⟩
  jsonDecode := fun _ => (⟨⟨some sampleRecordsAlt⟩⟩, none)

/-- The parse of a URL text as far as the samples need it: a control
character is refused. -/
def sampleParse (uri : String) : Option String :=
  if containsCTL uri then some "net/url: invalid control character in URL" else none

/-- A network whose provider answers the first request of a call with a
redirect to another address, and every later one with a page of HTML. -/
def netRedirect : Net where
  parse := sampleParse
  roundTrip := fun via _ =>
    match via with
    | [] => .redirect "http://www.google.com/sorry/index"
    | _ :: _ => .response ⟨"<html></html>"⟩

/-- The decode of a page of HTML: an error, and nothing read. -/
def decodeHTML : String → gResponse × Option String :=
  fun _ => (⟨⟨none⟩⟩, some "invalid character looking for beginning of value")

/-- The fields of a record that `Search` reads. -/
def gResult.mapped (r : gResult) : String × String × String :=
  (r.Title, r.URL, r.Content)

/-! ## Lemmas on the model -/

/-- What `strings.Replace` does to one character when a space becomes `+`. -/
def plusForSpace (c : Char) : Char :=
  if c = ' ' then '+' else c

theorem replaceLoop_space (cs : List Char) :
    replaceLoop [' '] ['+'] none 0 cs = cs.map plusForSpace := by
  induction cs with
  | nil => rfl
  | cons c cs ih =>
    by_cases hc : c = ' '
    · subst hc
      simp [replaceLoop, plusForSpace, ih]
    · have hc2 : ¬ ' ' = c := fun h => hc h.symm
      simp [replaceLoop, plusForSpace, hc, hc2, ih]

theorem stringsReplace_space (s : String) :
    (stringsReplace s " " "+" (-1)).data = s.data.map plusForSpace := by
  have h : stringsReplace s " " "+" (-1) = ⟨replaceLoop [' '] ['+'] none 0 s.data⟩ := by
    simp [stringsReplace]
  rw [h, replaceLoop_space]

theorem requestURI_data (term : String) :
    (requestURI term).data = baseURI.data ++ term.data.map plusForSpace := by
  simp [requestURI, stringsReplace_space]

theorem foldl_appendResult (rs : List gResult) (xs : List Result) :
    rs.foldl appendResult (some xs) = some (xs ++ rs.map toResult) := by
  induction rs generalizing xs with
  | nil => simp
  | cons r rs ih =>
    simp [List.foldl, appendResult, Slice.append, Slice.toList, ih, toResult]

/-- The trace of `Search`, path by path. -/
theorem Search_eq (env : Env) (term : String) :
    Search env term =
      [ Event.log ("Google Search : Started : searchTerm[" ++ term ++ "]\n"),
        Event.log ("Google Search : URL : " ++ requestURI term ++ "\n"),
        Event.get (requestURI term) ] ++
      match env.httpGet (requestURI term) with
      | .error err =>
        [ Event.log ("Google Search : Get : ERROR : " ++ err ++ "\n"),
          Event.send (some []) ]
      | .ok resp =>
        Event.decode resp.Body ::
          match env.jsonDecode resp.Body with
          | (_, some err) =>
            [ Event.log ("Google Search : Decode : ERROR : " ++ err ++ "\n"),
              Event.close resp.Body,
              Event.send (some []) ]
          | (gr, none) =>
            [ Event.log "Google Search : Completed\n",
              Event.close resp.Body,
              Event.send (some ((Slice.toList gr.ResponseData.Results).map toResult)) ] := by
  unfold Search
  cases h : env.httpGet (requestURI term) with
  | error err => simp [h, Frame.ret, Frame.emit, Frame.defer, Frame.run]
  | ok resp =>
    rcases h2 : env.jsonDecode resp.Body with ⟨gr, _ | err⟩
    · simp [h, h2, Frame.ret, Frame.emit, Frame.defer, Frame.run, foldl_appendResult]
    · simp [h, h2, Frame.ret, Frame.emit, Frame.defer, Frame.run]

/-- C1: for every search term and every outcome of the GET and of the decode,
one invocation of `Search` performs exactly one send on the result channel,
and the slice sent is not nil. -/
theorem Search_sends_once (env : Env) (term : String) :
    ∃ xs : List Result, sent (Search env term) = [some xs] := by
  cases hget : env.httpGet (requestURI term) with
  | error err => exact ⟨[], by rw [Search_eq]; simp [hget, sent]⟩
  | ok resp =>
    rcases hdec : env.jsonDecode resp.Body with ⟨gr, _ | err⟩
    · exact ⟨(Slice.toList gr.ResponseData.Results).map toResult,
        by rw [Search_eq]; simp [hget, hdec, sent]⟩
    · exact ⟨[], by rw [Search_eq]; simp [hget, hdec, sent]⟩

/-- C2: when the GET succeeds and the body decodes to a response whose
results hold the records `r_1 .. r_N`, the slice sent has length `N` and its
`i`-th element has `Engine = "Google"` and the title, url and content of
`r_i`. -/
theorem Search_maps_records (env : Env) (term : String) (resp : Response)
    (gr : gResponse)
    (hget : env.httpGet (requestURI term) = .ok resp)
    (hdec : env.jsonDecode resp.Body = (gr, none)) :
    ∃ xs : List Result,
      sent (Search env term) = [some xs] ∧
      xs.length = (Slice.toList gr.ResponseData.Results).length ∧
      ∀ i : Nat, xs[i]? =
        ((Slice.toList gr.ResponseData.Results)[i]?).map fun r =>
          { Engine := "Google", Title := r.Title, Link := r.URL, Content := r.Content } := by
  refine ⟨(Slice.toList gr.ResponseData.Results).map toResult, ?_, by simp, ?_⟩
  · rw [Search_eq]
    simp [hget, hdec, sent]
  · intro i
    rw [List.getElem?_map]
    rfl

/-- The scenario of C2: the term "golang" and a response of two records. -/
theorem Search_maps_records_witness :
    ∃ xs : List Result,
      sent (Search envTwo "golang") = [some xs] ∧
      xs.length = (Slice.toList (some sampleRecords)).length ∧
      ∀ i : Nat, xs[i]? =
        ((Slice.toList (some sampleRecords))[i]?).map fun r =>
          { Engine := "Google", Title := r.Title, Link := r.URL, Content := r.Content } :=
  Search_maps_records envTwo "golang" ⟨"body"⟩ ⟨⟨some sampleRecords⟩⟩ rfl rfl

/-- C3: when the GET returns a transport error, `Search` sends the empty
slice, hands no body to the decoder, closes no body, and the error shows
only in the log: the trace is the one written here. -/
theorem Search_get_error (env : Env) (term err : String)
    (hget : env.httpGet (requestURI term) = .error err) :
    sent (Search env term) = [some []] ∧
    decoded (Search env term) = [] ∧
    closed (Search env term) = [] ∧
    Search env term =
      [ Event.log ("Google Search : Started : searchTerm[" ++ term ++ "]\n"),
        Event.log ("Google Search : URL : " ++ requestURI term ++ "\n"),
        Event.get (requestURI term),
        Event.log ("Google Search : Get : ERROR : " ++ err ++ "\n"),
        Event.send (some []) ] := by
  rw [Search_eq]
  simp [hget, sent, decoded, closed]

/-- The scenario of C3: the provider cannot be reached. -/
theorem Search_get_error_witness :
    sent (Search envDown "foo bar") = [some []] ∧
    decoded (Search envDown "foo bar") = [] ∧
    closed (Search envDown "foo bar") = [] ∧
    Search envDown "foo bar" =
      [ Event.log ("Google Search : Started : searchTerm[" ++ "foo bar" ++ "]\n"),
        Event.log ("Google Search : URL : " ++ requestURI "foo bar" ++ "\n"),
        Event.get (requestURI "foo bar"),
        Event.log ("Google Search : Get : ERROR : " ++ "dial tcp: no route to host" ++ "\n"),
        Event.send (some []) ] :=
  Search_get_error envDown "foo bar" "dial tcp: no route to host" rfl

/-- C4: when the GET succeeds and the decode fails, `Search` sends the empty
slice, whatever the failed decode left in the response value. -/
theorem Search_decode_error (env : Env) (term err : String) (resp : Response)
    (gr : gResponse)
    (hget : env.httpGet (requestURI term) = .ok resp)
    (hdec : env.jsonDecode resp.Body = (gr, some err)) :
    sent (Search env term) = [some []] := by
  rw [Search_eq]
  simp [hget, hdec, sent]

/-- An instance of C4 in which the failed decode had read one record. -/
theorem Search_decode_error_witness :
    (envBadJSON.jsonDecode "body").1.ResponseData.Results = some (sampleRecords.take 1) ∧
    sent (Search envBadJSON "golang") = [some []] :=
  ⟨rfl, Search_decode_error envBadJSON "golang" "unexpected EOF" ⟨"body"⟩
    ⟨⟨some (sampleRecords.take 1)⟩⟩ rfl rfl⟩

/-- C5, evaluated at the term "a&b": the URL requested holds the term as it
is, with its `&` not escaped, for every outcome of the request. -/
theorem Search_ampersand_literal :
    (∀ env : Env, requested (Search env "a&b") =
      ["http://ajax.googleapis.com/ajax/services/search/web?v=1.0&rsz=8&q=a&b"]) ∧
    '&' ∈ "a&b".data ∧
    '&' ∈ (requestURI "a&b").data.drop baseURI.data.length := by
  refine ⟨fun env => ?_, by decide, by decide⟩
  rw [Search_eq]
  have h : requestURI "a&b" =
      "http://ajax.googleapis.com/ajax/services/search/web?v=1.0&rsz=8&q=a&b" := by decide
  rw [h]
  split
  · simp [requested]
  · split <;> simp [requested]

/-- C6: the URL requested is the fixed prefix followed by the term in which
every space is replaced by one `+` and every other character is kept in
place; it holds no space; "foo bar" is sent as "foo+bar"; a term without
a space is embedded unchanged. -/
theorem Search_space_as_plus (env : Env) (term : String) :
    (∃ uri : String, requested (Search env term) = [uri] ∧
      uri.data = baseURI.data ++ term.data.map (fun c => if c = ' ' then '+' else c) ∧
      ' ' ∉ uri.data) ∧
    requested (Search env "foo bar") = [baseURI ++ "foo+bar"] ∧
    (' ' ∉ term.data → requested (Search env term) = [baseURI ++ term]) := by
  have hreq : ∀ t : String, requested (Search env t) = [requestURI t] := by
    intro t
    rw [Search_eq]
    split
    · simp [requested]
    · split <;> simp [requested]
  have hmap : ∀ t : String, (requestURI t).data =
      baseURI.data ++ t.data.map (fun c => if c = ' ' then '+' else c) := by
    intro t
    rw [requestURI_data]
    rfl
  refine ⟨⟨requestURI term, hreq term, hmap term, ?_⟩, ?_, ?_⟩
  · rw [hmap]
    intro hmem
    rcases List.mem_append.mp hmem with hb | ht
    · revert hb
      decide
    · rcases List.mem_map.mp ht with ⟨c, _, hc⟩
      by_cases hsp : c = ' '
      · simp [hsp] at hc
      · simp [hsp] at hc
  · rw [hreq]
    decide
  · intro hno
    rw [hreq]
    congr 1
    apply String.ext
    rw [hmap]
    have : term.data.map (fun c => if c = ' ' then '+' else c) = term.data := by
      have hid : ∀ c ∈ term.data, (fun c => if c = ' ' then '+' else c) c = c := by
        intro c hc
        have : c ≠ ' ' := fun h => hno (h ▸ hc)
        simp [this]
      rw [List.map_congr_left hid]
      simp
    rw [this]
    rfl

/-- A term with a control character, which `Search` does not escape: the
client refuses the URL text and the invocation sends no HTTP request. -/
theorem Search_control_character_no_request :
    requested (Search (Env.ofNet netRedirect decodeHTML) "a\tb") =
      ["http://ajax.googleapis.com/ajax/services/search/web?v=1.0&rsz=8&q=a\tb"] ∧
    wire netRedirect (Search (Env.ofNet netRedirect decodeHTML) "a\tb") = [] := by
  decide

/-- C8: two decoded responses whose records agree, one by one, on title, url
and content make `Search` send equal slices, whatever the other fields, the
bodies and the terms are. -/
theorem Search_reads_three_fields (env₁ env₂ : Env) (term₁ term₂ : String)
    (resp₁ resp₂ : Response) (gr₁ gr₂ : gResponse)
    (hget₁ : env₁.httpGet (requestURI term₁) = .ok resp₁)
    (hdec₁ : env₁.jsonDecode resp₁.Body = (gr₁, none))
    (hget₂ : env₂.httpGet (requestURI term₂) = .ok resp₂)
    (hdec₂ : env₂.jsonDecode resp₂.Body = (gr₂, none))
    (hagree : (Slice.toList gr₁.ResponseData.Results).map gResult.mapped =
      (Slice.toList gr₂.ResponseData.Results).map gResult.mapped) :
    sent (Search env₁ term₁) = sent (Search env₂ term₂) := by
  have hfac : ∀ rs : List gResult, rs.map toResult =
      (rs.map gResult.mapped).map (fun t => ⟨"Google", t.1, t.2.1, t.2.2⟩) := by
    intro rs
    simp [toResult, gResult.mapped, Function.comp_def]
  rw [Search_eq, Search_eq]
  simp only [hget₁, hdec₁, hget₂, hdec₂]
  simp [sent, hfac, hagree]

/-- An instance of C8: the records of the two responses differ in every field
that is not read, and in nothing else. -/
theorem Search_reads_three_fields_witness :
    sampleRecords ≠ sampleRecordsAlt ∧
    sent (Search envTwo "golang") = sent (Search envTwoAlt "go lang") :=
  ⟨by decide,
   Search_reads_three_fields envTwo envTwoAlt "golang" "go lang" ⟨"body"⟩ ⟨"other body"⟩
    ⟨⟨some sampleRecords⟩⟩ ⟨⟨some sampleRecordsAlt⟩⟩ rfl rfl rfl rfl (by decide)⟩

/-- C9: when the GET succeeds the body of the response is closed exactly once
in the invocation, whether the decode succeeds or fails; when the GET fails
nothing is closed. -/
theorem Search_closes_body (env : Env) (term : String) :
    closed (Search env term) =
      match env.httpGet (requestURI term) with
      | .ok resp => [resp.Body]
      | .error _ => [] := by
  rw [Search_eq]
  cases hget : env.httpGet (requestURI term) with
  | error err => simp [closed]
  | ok resp =>
    rcases hdec : env.jsonDecode resp.Body with ⟨gr, _ | err⟩ <;> simp [hdec, closed]

/-- C10: the send is the last effect of every invocation: the trace is a
prefix followed by the send, and the prefix holds no send, the one GET, the
decode and the close of the body when the GET succeeded, so that nothing is
requested, decoded or closed after the send. -/
theorem Search_send_last (env : Env) (term : String) :
    ∃ (pre : List Event) (rs : Slice Result),
      Search env term = pre ++ [Event.send rs] ∧
      sent pre = [] ∧
      requested pre = [requestURI term] ∧
      decoded pre =
        (match env.httpGet (requestURI term) with
          | .ok resp => [resp.Body]
          | .error _ => []) ∧
      closed pre =
        (match env.httpGet (requestURI term) with
          | .ok resp => [resp.Body]
          | .error _ => []) := by
  rw [Search_eq]
  cases hget : env.httpGet (requestURI term) with
  | error err =>
    simp only [List.cons_append, List.nil_append]
    refine ⟨[_, _, _, _], _, rfl, ?_, ?_, ?_, ?_⟩ <;> simp [sent, requested, decoded, closed]
  | ok resp =>
    rcases hdec : env.jsonDecode resp.Body with ⟨gr, _ | err⟩
    · simp only [hdec, List.cons_append, List.nil_append]
      refine ⟨[_, _, _, _, _, _], _, rfl, ?_, ?_, ?_, ?_⟩ <;>
        simp [sent, requested, decoded, closed]
    · simp only [hdec, List.cons_append, List.nil_append]
      refine ⟨[_, _, _, _, _, _], _, rfl, ?_, ?_, ?_, ?_⟩ <;>
        simp [sent, requested, decoded, closed]

end search
